import Mathlib

/-!
Heartbeat emitters of lesson L00

Two firmware images are embedded here:

* `UsbHello` : `lessons/L00-vscode-env/code/pico-sdk-usb-hello/main.c` (variant A)
* `Hello`    : `lessons/L00-vscode-env/code/pico_sdk_hello/main.c` (variant B)

Each `main` is a small-step machine whose states are the program points of the
C function.  A step performs one statement and records the library call it
makes, if any, as an `Event`.  The value a library call returns is handed to the
step from outside, since it is decided by the serial channel and not by the
program.
-/

namespace L00

/-! ## Library calls -/

/-- A call into the C library or the Pico SDK, with its arguments. -/
inductive Event where
  | stdio_init_all : Event
  | sleep_ms (ms : Nat) : Event
  | puts (s : String) : Event
  | printf (format : String) (arg : Int) : Event
  deriving DecidableEq, Repr

/-- Decimal digits of a natural number, most significant first. -/
def decimal (n : Nat) : List Char := Nat.toDigits 10 n

/-- Text of the conversion `%d` for an `int` argument. -/
def conv_d (v : Int) : List Char :=
  if v < 0 then '-' :: decimal v.natAbs else decimal v.natAbs

/-- Text of the conversion `%lu` for an `unsigned long` argument. -/
def conv_lu (v : Int) : List Char := decimal v.toNat

/-- Text written by `printf` for a format with integer conversions `%d` and
`%lu` reading the argument `v`; every other character of the format is copied
as it stands. -/
def format_text : List Char → Int → List Char
  | [], _ => []
  | '%' :: 'd' :: rest, v => conv_d v ++ format_text rest v
  | '%' :: 'l' :: 'u' :: rest, v => conv_lu v ++ format_text rest v
  | c :: rest, v => c :: format_text rest v

/-- Characters an event writes to the serial channel. -/
def Event.text : Event → List Char
  | .stdio_init_all => []
  | .sleep_ms _ => []
  | .puts s => s.data ++ ['\n']
  | .printf format arg => format_text format.data arg

/-- Output events are the calls that write to the serial channel. -/
def Event.isOutput : Event → Bool
  | .puts _ => true
  | .printf _ _ => true
  | _ => false

/-- Tick emissions are the `printf` calls of the loops. -/
def Event.isTick : Event → Bool
  | .printf _ _ => true
  | _ => false

/-- Serial text written by a trace of events. -/
def output (tr : List Event) : List Char := (tr.map Event.text).flatten

/-- Counter values handed to the `printf` calls of a trace, in order. -/
def printfArgs : List Event → List Int
  | [] => []
  | .printf _ v :: tr => v :: printfArgs tr
  | _ :: tr => printfArgs tr

/-- Requested durations of the `sleep_ms` calls of a trace, in order. -/
def sleeps : List Event → List Nat
  | [] => []
  | .sleep_ms d :: tr => d :: sleeps tr
  | _ :: tr => sleeps tr

/-- Two's complement value of an integer in the 32-bit `int` of the target.  ISO C
leaves the overflow of `count++` undefined; the addition of the Cortex-M0+ wraps, and
that is the behaviour taken here.  Statements about fewer than `2 ^ 31` passes of the
loop do not depend on it. -/
def wrap_int (x : Int) : Int := (x + 2 ^ 31) % 2 ^ 32 - 2 ^ 31

/-! ## Variant A: `pico-sdk-usb-hello/main.c` -/

namespace UsbHello

/-- Format string of the `printf` call, as the compiler reads the literal:
the literal ends in an escaped backslash followed by the letter `n`. -/
def format : String := "L00 Pico SDK smoke test tick %d\\n"

/-- Program points of `main`; `count` exists from its declaration on. -/
inductive State where
  | at_stdio_init_all : State
  | at_sleep_2000 : State
  | at_decl_count : State
  | at_while (count : Int) : State
  | at_printf (count : Int) : State
  | at_sleep_1000 (count : Int) : State
  | returned : State
  deriving DecidableEq, Repr

/-- One statement of `main`.  `ret` is the value the library call of this
statement returns; `main` stores none of them.  The result is `none` once
`main` has returned. -/
def step (ret : Int) : State → Option (State × Option Event)
  | .at_stdio_init_all => some (.at_sleep_2000, some .stdio_init_all)
  | .at_sleep_2000 => some (.at_decl_count, some (.sleep_ms 2000))
  | .at_decl_count => some (.at_while 0, none)
  | .at_while count =>
    if true then some (.at_printf count, none) else some (.returned, none)
  | .at_printf count =>
    let _ := ret
    some (.at_sleep_1000 (wrap_int (count + 1)), some (.printf format count))
  | .at_sleep_1000 count => some (.at_while count, some (.sleep_ms 1000))
  | .returned => none

/-- State and trace of `main` after `k` steps, the `i`-th step receiving the
return value `rets i`. -/
def exec (rets : Nat → Int) : Nat → Option (State × List Event)
  | 0 => some (.at_stdio_init_all, [])
  | k + 1 =>
    match exec rets k with
    | none => none
    | some (s, tr) =>
      match step (rets k) s with
      | none => none
      | some (s1, ev) => some (s1, tr ++ ev.toList)

/-- Events of `main` before the loop. -/
def prologue : List Event := [.stdio_init_all, .sleep_ms 2000]

end UsbHello

/-! ## Variant B: `pico_sdk_hello/main.c` -/

namespace Hello

/-- Argument of the `puts` call. -/
def banner : String := "L00 Pico SDK hello"

/-- Format string of the `printf` call. -/
def format : String := "tick: %lu\n"

/-- Program points of `main`; `counter` exists from its declaration on. -/
inductive State where
  | at_stdio_init_all : State
  | at_sleep_2000 : State
  | at_puts : State
  | at_decl_counter : State
  | at_while (counter : Nat) : State
  | at_printf (counter : Nat) : State
  | at_sleep_1000 (counter : Nat) : State
  | returned : State
  deriving DecidableEq, Repr

/-- One statement of `main`.  `w` is the width in bits of `unsigned long`
(32 on the RP2040), `ret` the value the library call of this statement
returns; `main` stores none of them.  The result is `none` once `main` has
returned. -/
def step (w : Nat) (ret : Int) : State → Option (State × Option Event)
  | .at_stdio_init_all => some (.at_sleep_2000, some .stdio_init_all)
  | .at_sleep_2000 => some (.at_puts, some (.sleep_ms 2000))
  | .at_puts =>
    let _ := ret
    some (.at_decl_counter, some (.puts banner))
  | .at_decl_counter => some (.at_while 0, none)
  | .at_while counter =>
    if true then some (.at_printf counter, none) else some (.returned, none)
  | .at_printf counter =>
    let _ := ret
    some (.at_sleep_1000 ((counter + 1) % 2 ^ w), some (.printf format counter))
  | .at_sleep_1000 counter => some (.at_while counter, some (.sleep_ms 1000))
  | .returned => none

/-- State and trace of `main` after `k` steps, the `i`-th step receiving the
return value `rets i`. -/
def exec (w : Nat) (rets : Nat → Int) : Nat → Option (State × List Event)
  | 0 => some (.at_stdio_init_all, [])
  | k + 1 =>
    match exec w rets k with
    | none => none
    | some (s, tr) =>
      match step w (rets k) s with
      | none => none
      | some (s1, ev) => some (s1, tr ++ ev.toList)

/-- Events of `main` before the loop. -/
def prologue : List Event := [.stdio_init_all, .sleep_ms 2000, .puts banner]

/-- Value of the counter in pass `i` of the loop for an `unsigned long` of
`w` bits. -/
def value (w : Nat) (i : Nat) : Int := ((i % 2 ^ w : Nat) : Int)

end Hello

/-! ## Expected shape of the traces -/

/-- Events of the first `n` passes through a loop whose pass `i` calls `printf`
with the format `fmt` and the value `val i` and then `sleep_ms(1000)`. -/
def iterations (fmt : String) (val : Nat → Int) : Nat → List Event
  | 0 => []
  | n + 1 => iterations fmt val n ++ [.printf fmt (val n), .sleep_ms 1000]

/-- Arguments of the `puts` calls of a trace, in order. -/
def putsArgs : List Event → List String
  | [] => []
  | .puts b :: tr => b :: putsArgs tr
  | _ :: tr => putsArgs tr

/-- Events of a trace that precede its first output event. -/
def beforeFirstOutput (tr : List Event) : List Event := tr.takeWhile (fun e => !e.isOutput)

/-- Line `line` with its leading label `old` replaced by `new`; `none` when the line
does not begin with `old`. -/
def relabel (old new line : List Char) : Option (List Char) :=
  if line.take old.length = old then some (new ++ line.drop old.length) else none

/-- Line the description gives for tick `n` of variant B. -/
def Hello.expected_line (n : Nat) : List Char := "tick: ".data ++ decimal n ++ ['\n']

/-- Serial output the description gives for variant B after `k` passes of the
loop: the banner line, then the tick lines `0` to `k - 1`. -/
def Hello.expected_output (k : Nat) : List Char :=
  "L00 Pico SDK hello\n".data ++ ((List.range k).map Hello.expected_line).flatten

/-! ## General lemmas -/

theorem printfArgs_append (a b : List Event) :
    printfArgs (a ++ b) = printfArgs a ++ printfArgs b := by
  induction a with
  | nil => rfl
  | cons e a ih => cases e <;> simp [printfArgs, ih]

theorem sleeps_append (a b : List Event) : sleeps (a ++ b) = sleeps a ++ sleeps b := by
  induction a with
  | nil => rfl
  | cons e a ih => cases e <;> simp [sleeps, ih]

theorem output_append (a b : List Event) : output (a ++ b) = output a ++ output b := by
  simp [output]

theorem putsArgs_append (a b : List Event) : putsArgs (a ++ b) = putsArgs a ++ putsArgs b := by
  induction a with
  | nil => rfl
  | cons e a ih => cases e <;> simp [putsArgs, ih]

theorem putsArgs_iterations (fmt : String) (val : Nat → Int) (n : Nat) :
    putsArgs (iterations fmt val n) = [] := by
  induction n with
  | zero => rfl
  | succ n ih => simp [iterations, putsArgs_append, ih, putsArgs]

theorem printfArgs_iterations (fmt : String) (val : Nat → Int) (n : Nat) :
    printfArgs (iterations fmt val n) = (List.range n).map val := by
  induction n with
  | zero => rfl
  | succ n ih => simp [iterations, printfArgs_append, ih, List.range_succ, printfArgs]

theorem ticks_iterations (fmt : String) (val : Nat → Int) (n : Nat) :
    ((iterations fmt val n).filter Event.isTick).length = n := by
  induction n with
  | zero => rfl
  | succ n ih => simp [iterations, ih, Event.isTick]

theorem output_iterations (fmt : String) (val : Nat → Int) (n : Nat) :
    output (iterations fmt val n)
      = ((List.range n).map (fun i => format_text fmt.data (val i))).flatten := by
  induction n with
  | zero => rfl
  | succ n ih =>
    rw [iterations, output_append, ih, List.range_succ]
    simp [output, Event.text]

theorem decimal_samples :
    decimal 0 = "0".data ∧ decimal 7 = "7".data ∧ decimal 10 = "10".data ∧
      decimal 2147483647 = "2147483647".data ∧ decimal 4294967295 = "4294967295".data ∧
      conv_d (-2147483648) = "-2147483648".data := by
  decide

theorem wrap_int_succ (x : Int) : wrap_int (wrap_int x + 1) = wrap_int (x + 1) := by
  unfold wrap_int
  omega

theorem wrap_int_of_lt (n : Nat) (h : n < 2 ^ 31) : wrap_int n = n := by
  unfold wrap_int
  omega

namespace UsbHello

theorem exec_succ (rets : Nat → Int) (k : Nat) :
    exec rets (k + 1) =
      match exec rets k with
      | none => none
      | some (s, tr) =>
        match step (rets k) s with
        | none => none
        | some (s1, ev) => some (s1, tr ++ ev.toList) := rfl

theorem exec_while (rets : Nat → Int) (n : Nat) :
    exec rets (3 * n + 3)
      = some (.at_while (wrap_int n), prologue ++ iterations format (fun i => wrap_int i) n) := by
  induction n with
  | zero => rfl
  | succ n ih =>
    have h : 3 * (n + 1) + 3 = 3 * n + 3 + 1 + 1 + 1 := by ring
    rw [h, exec_succ, exec_succ, exec_succ, ih]
    simp [step, iterations, wrap_int_succ]

theorem exec_printf (rets : Nat → Int) (n : Nat) :
    exec rets (3 * n + 4)
      = some (.at_printf (wrap_int n), prologue ++ iterations format (fun i => wrap_int i) n) := by
  have h : 3 * n + 4 = 3 * n + 3 + 1 := by ring
  rw [h, exec_succ, exec_while]
  simp [step]

theorem exec_sleep (rets : Nat → Int) (n : Nat) :
    exec rets (3 * n + 5)
      = some (.at_sleep_1000 (wrap_int (n + 1)),
          prologue ++ iterations format (fun i => wrap_int i) n
            ++ [.printf format (wrap_int n)]) := by
  have h : 3 * n + 5 = 3 * n + 4 + 1 := by ring
  rw [h, exec_succ, exec_printf]
  simp [step, wrap_int_succ]

end UsbHello

namespace Hello

theorem hello_exec_succ (w : Nat) (rets : Nat → Int) (k : Nat) :
    exec w rets (k + 1) =
      match exec w rets k with
      | none => none
      | some (s, tr) =>
        match step w (rets k) s with
        | none => none
        | some (s1, ev) => some (s1, tr ++ ev.toList) := rfl

theorem hello_exec_while (w : Nat) (rets : Nat → Int) (n : Nat) :
    exec w rets (3 * n + 4)
      = some (.at_while (n % 2 ^ w), prologue ++ iterations format (value w) n) := by
  induction n with
  | zero => simp [exec, step, prologue, iterations, Nat.zero_mod]
  | succ n ih =>
    have h : 3 * (n + 1) + 4 = 3 * n + 4 + 1 + 1 + 1 := by ring
    rw [h, hello_exec_succ, hello_exec_succ, hello_exec_succ, ih]
    simp [step, iterations, value]

theorem hello_exec_printf (w : Nat) (rets : Nat → Int) (n : Nat) :
    exec w rets (3 * n + 5)
      = some (.at_printf (n % 2 ^ w), prologue ++ iterations format (value w) n) := by
  have h : 3 * n + 5 = 3 * n + 4 + 1 := by ring
  rw [h, hello_exec_succ, hello_exec_while]
  simp [step]

theorem hello_exec_sleep (w : Nat) (rets : Nat → Int) (n : Nat) :
    exec w rets (3 * n + 6)
      = some (.at_sleep_1000 ((n + 1) % 2 ^ w),
          prologue ++ iterations format (value w) n ++ [.printf format (value w n)]) := by
  have h : 3 * n + 6 = 3 * n + 5 + 1 := by ring
  rw [h, hello_exec_succ, hello_exec_printf]
  simp [step, value]

end Hello

/-! ## Counter values -/

theorem UsbHello.args_after_tick (rets : Nat → Int) (n : Nat) :
    ∃ s tr, UsbHello.exec rets (3 * n + 5) = some (s, tr) ∧
      printfArgs tr = (List.range (n + 1)).map (fun i : Nat => wrap_int i) :=
  ⟨_, _, UsbHello.exec_sleep rets n, by
    simp [printfArgs_append, printfArgs_iterations, List.range_succ, printfArgs,
      UsbHello.prologue]⟩

theorem Hello.hello_args_after_tick (w : Nat) (rets : Nat → Int) (n : Nat) :
    ∃ s tr, Hello.exec w rets (3 * n + 6) = some (s, tr) ∧
      printfArgs tr = (List.range (n + 1)).map (Hello.value w) :=
  ⟨_, _, Hello.hello_exec_sleep w rets n, by
    simp [printfArgs_append, printfArgs_iterations, List.range_succ, printfArgs,
      Hello.prologue]⟩

theorem getElem?_map_range_last (f : Nat → Int) (n : Nat) :
    ((List.range (n + 1)).map f)[n]? = some (f n) := by
  rw [List.getElem?_map, List.getElem?_range (Nat.lt_succ_self n)]
  rfl

/-- C1 fails as stated: in variant B on the RP2040 (`unsigned long` of 32 bits) the
`printf` call number `2 ^ 32` receives the counter value `0`, not `2 ^ 32`. -/
theorem counter_value_ne_index_at_wrap :
    ∃ s tr, Hello.exec 32 (fun _ => 0) (3 * 2 ^ 32 + 6) = some (s, tr) ∧
      (printfArgs tr)[2 ^ 32]? = some 0 ∧
      (printfArgs tr)[2 ^ 32]? ≠ some ((2 ^ 32 : Nat) : Int) := by
  obtain ⟨s, tr, h, hargs⟩ := Hello.hello_args_after_tick 32 (fun _ => 0) (2 ^ 32)
  have hv : Hello.value 32 (2 ^ 32) = 0 := by decide
  have h0 : (printfArgs tr)[2 ^ 32]? = some 0 := by
    rw [hargs, getElem?_map_range_last, hv]
  refine ⟨s, tr, h, h0, ?_⟩
  rw [h0]
  decide

/-- C1, amended: while the counter has not wrapped (`n < 2 ^ 31` for the `int` of
variant A, `n < 2 ^ w` for the `unsigned long` of `w` bits of variant B), the counter
values passed to the `printf` calls number `0` to `n` are `0, 1, …, n`: the `n`-th
call receives `n`. -/
theorem counter_value_eq_index (w : Nat) (rets : Nat → Int) (n : Nat) :
    (n < 2 ^ 31 → ∃ s tr, UsbHello.exec rets (3 * n + 5) = some (s, tr) ∧
      printfArgs tr = (List.range (n + 1)).map (fun i : Nat => (i : Int)) ∧
      (printfArgs tr)[n]? = some (n : Int)) ∧
    (n < 2 ^ w → ∃ s tr, Hello.exec w rets (3 * n + 6) = some (s, tr) ∧
      printfArgs tr = (List.range (n + 1)).map (fun i : Nat => (i : Int)) ∧
      (printfArgs tr)[n]? = some (n : Int)) := by
  constructor
  · intro hn
    obtain ⟨s, tr, h, hargs⟩ := UsbHello.args_after_tick rets n
    have hmap : printfArgs tr = (List.range (n + 1)).map (fun i : Nat => (i : Int)) := by
      rw [hargs]
      apply List.map_congr_left
      intro i hi
      exact wrap_int_of_lt i (by rw [List.mem_range] at hi; omega)
    exact ⟨s, tr, h, hmap, by rw [hmap, getElem?_map_range_last]⟩
  · intro hn
    obtain ⟨s, tr, h, hargs⟩ := Hello.hello_args_after_tick w rets n
    have hmap : printfArgs tr = (List.range (n + 1)).map (fun i : Nat => (i : Int)) := by
      rw [hargs]
      apply List.map_congr_left
      intro i hi
      rw [List.mem_range] at hi
      simp only [Hello.value]
      rw [Nat.mod_eq_of_lt (by omega)]
    exact ⟨s, tr, h, hmap, by rw [hmap, getElem?_map_range_last]⟩

/-- Instance of `counter_value_eq_index` at the third `printf` call of both variants,
with the RP2040 width of 32 bits for variant B. -/
theorem counter_value_eq_index_witness :
    ((2 : Nat) < 2 ^ 31 ∧ (2 : Nat) < 2 ^ 32) ∧
    (∃ s tr, UsbHello.exec (fun _ => 0) (3 * 2 + 5) = some (s, tr) ∧
      printfArgs tr = (List.range (2 + 1)).map (fun i : Nat => (i : Int)) ∧
      (printfArgs tr)[2]? = some ((2 : Nat) : Int)) ∧
    (∃ s tr, Hello.exec 32 (fun _ => 0) (3 * 2 + 6) = some (s, tr) ∧
      printfArgs tr = (List.range (2 + 1)).map (fun i : Nat => (i : Int)) ∧
      (printfArgs tr)[2]? = some ((2 : Nat) : Int)) :=
  ⟨by decide, (counter_value_eq_index 32 (fun _ => 0) 2).1 (by decide),
    (counter_value_eq_index 32 (fun _ => 0) 2).2 (by decide)⟩

/-- C10: in variant B with an `unsigned long` of `w` bits, the counter values passed to
the `printf` calls number `0` to `n` are `i mod 2 ^ w` for `i = 0, …, n`; the value is
never negative, it is `n` itself while `n < 2 ^ w`, and the call that follows a call
with value `2 ^ w - 1` receives `0`. -/
theorem counter_value_mod_width (w : Nat) (rets : Nat → Int) (n : Nat) :
    ∃ s tr, Hello.exec w rets (3 * n + 6) = some (s, tr) ∧
      printfArgs tr = (List.range (n + 1)).map (fun i : Nat => ((i % 2 ^ w : Nat) : Int)) ∧
      (printfArgs tr)[n]? = some ((n % 2 ^ w : Nat) : Int) ∧
      (∀ v ∈ printfArgs tr, 0 ≤ v) ∧
      (n < 2 ^ w → (printfArgs tr)[n]? = some (n : Int)) ∧
      (∀ i, i < n → (printfArgs tr)[i]? = some ((2 ^ w - 1 : Nat) : Int) →
        (printfArgs tr)[i + 1]? = some 0) := by
  obtain ⟨s, tr, h, hargs⟩ := Hello.hello_args_after_tick w rets n
  have hmap : printfArgs tr = (List.range (n + 1)).map (fun i : Nat => ((i % 2 ^ w : Nat) : Int)) :=
    hargs
  have hpos : 0 < 2 ^ w := by positivity
  have hget : ∀ i, i < n + 1 → (printfArgs tr)[i]? = some ((i % 2 ^ w : Nat) : Int) := by
    intro i hi
    rw [hmap, List.getElem?_map, List.getElem?_range hi]
    rfl
  refine ⟨s, tr, h, hmap, hget n (Nat.lt_succ_self n), ?_, ?_, ?_⟩
  · intro v hv
    rw [hmap, List.mem_map] at hv
    obtain ⟨i, _, rfl⟩ := hv
    exact Int.ofNat_nonneg _
  · intro hn
    rw [hget n (Nat.lt_succ_self n), Nat.mod_eq_of_lt hn]
  · intro i hi hlast
    rw [hget i (by omega)] at hlast
    rw [hget (i + 1) (by omega)]
    have h1 : i % 2 ^ w = 2 ^ w - 1 := by
      have := Option.some.inj hlast
      exact_mod_cast this
    have h2 : (i + 1) % 2 ^ w = 0 := by
      rw [Nat.add_mod, h1]
      have : 2 ^ w - 1 + 1 % 2 ^ w = 2 ^ w ∨ 2 ^ w = 1 := by
        rcases Nat.lt_or_ge 1 (2 ^ w) with h | h
        · left; rw [Nat.mod_eq_of_lt h]; omega
        · right; omega
      rcases this with h | h
      · rw [h, Nat.mod_self]
      · rw [h]
    rw [h2]
    rfl

/-! ## Text written by the tick emissions -/

theorem UsbHello.format_text_eq (v : Int) :
    format_text UsbHello.format.data v
      = "L00 Pico SDK smoke test tick ".data ++ conv_d v ++ ['\\', 'n'] := rfl

theorem Hello.hello_format_text_eq (v : Int) :
    format_text Hello.format.data v = "tick: ".data ++ conv_lu v ++ ['\n'] := rfl

theorem Hello.tick_text (w n : Nat) :
    format_text Hello.format.data (Hello.value w n) = Hello.expected_line (n % 2 ^ w) := by
  rw [Hello.hello_format_text_eq]
  simp only [conv_lu, Hello.value, Hello.expected_line, Int.toNat_ofNat]

theorem Hello.output_after_passes (w : Nat) (rets : Nat → Int) (k : Nat) :
    ∃ tr, Hello.exec w rets (3 * k + 4) = some (.at_while (k % 2 ^ w), tr) ∧
      output tr = "L00 Pico SDK hello\n".data
        ++ ((List.range k).map (fun n : Nat => Hello.expected_line (n % 2 ^ w))).flatten ∧
      putsArgs tr = [Hello.banner] := by
  refine ⟨_, Hello.hello_exec_while w rets k, ?_, ?_⟩
  · rw [output_append, output_iterations]
    have hl : (List.range k).map (fun i => format_text Hello.format.data (Hello.value w i))
        = (List.range k).map (fun n : Nat => Hello.expected_line (n % 2 ^ w)) :=
      List.map_congr_left (fun n _ => Hello.tick_text w n)
    rw [hl]
    rfl
  · rw [putsArgs_append, putsArgs_iterations]
    rfl

/-- C2 at its first three emissions: variant A writes a backslash and the letter `n`
after each counter value and no newline character, so the three emissions form one
unterminated run of text, and the first is not the line `L00 Pico SDK smoke test tick 0`
followed by a newline. -/
theorem usb_hello_ticks_end_in_backslash_n :
    (UsbHello.exec (fun _ => 0) 12).map (fun p => output p.2)
      = some ("L00 Pico SDK smoke test tick 0\\n" ++ "L00 Pico SDK smoke test tick 1\\n"
          ++ "L00 Pico SDK smoke test tick 2\\n").data ∧
    (UsbHello.exec (fun _ => 0) 5).map (fun p => output p.2)
      = some ("L00 Pico SDK smoke test tick 0".data ++ ['\\', 'n']) ∧
    (UsbHello.exec (fun _ => 0) 5).map (fun p => output p.2)
      ≠ some ("L00 Pico SDK smoke test tick 0".data ++ ['\n']) := by
  decide

/-- C3 fails as stated: on the RP2040 (`unsigned long` of 32 bits) the output of
variant B after `2 ^ 32 + 1` passes of the loop is not the banner followed by the
lines `tick: 0` to `tick: 4294967296`, since the last line written is `tick: 0`. -/
theorem hello_output_ne_expected_after_wrap :
    ∃ s tr, Hello.exec 32 (fun _ => 0) (3 * (2 ^ 32 + 1) + 4) = some (s, tr) ∧
      output tr ≠ Hello.expected_output (2 ^ 32 + 1) := by
  obtain ⟨tr, h, hout, _⟩ := Hello.output_after_passes 32 (fun _ => 0) (2 ^ 32 + 1)
  refine ⟨_, tr, h, ?_⟩
  rw [hout, Hello.expected_output, List.range_succ, List.map_append, List.map_append,
    List.flatten_append, List.flatten_append]
  have hl : (List.range (2 ^ 32)).map (fun n : Nat => Hello.expected_line (n % 2 ^ 32))
      = (List.range (2 ^ 32)).map Hello.expected_line := by
    apply List.map_congr_left
    intro n hn
    rw [List.mem_range] at hn
    rw [Nat.mod_eq_of_lt hn]
  rw [hl]
  intro heq
  have h1 := List.append_cancel_left (List.append_cancel_left heq)
  have h2 : Hello.expected_line (2 ^ 32 % 2 ^ 32) ≠ Hello.expected_line (2 ^ 32) := by
    decide
  apply h2
  simpa using h1

/-- C3, amended: in variant B with an `unsigned long` of `w` bits, the serial output
written up to the end of pass `k` of the loop is the banner line once, followed by
the lines `tick: ` and the decimal digits of `n mod 2 ^ w` for `n = 0, …, k - 1`, each
ended by a newline; `puts` is called once, with the banner. -/
theorem hello_output_banner_then_ticks (w : Nat) (rets : Nat → Int) (k : Nat) :
    ∃ tr, Hello.exec w rets (3 * k + 4) = some (.at_while (k % 2 ^ w), tr) ∧
      output tr = "L00 Pico SDK hello\n".data
        ++ ((List.range k).map
            (fun n : Nat => "tick: ".data ++ decimal (n % 2 ^ w) ++ ['\n'])).flatten ∧
      putsArgs tr = ["L00 Pico SDK hello"] :=
  Hello.output_after_passes w rets k

/-! ## Shape of the traces at every step -/

theorem step_count_cases (j k : Nat) (h : j ≤ k) :
    ∃ n, k = 3 * n + j ∨ k = 3 * n + (j + 1) ∨ k = 3 * n + (j + 2) :=
  ⟨(k - j) / 3, by omega⟩

theorem init_not_mem_iterations (fmt : String) (val : Nat → Int) (n : Nat) :
    Event.stdio_init_all ∉ iterations fmt val n := by
  induction n with
  | zero => simp [iterations]
  | succ n ih => simp [iterations, ih]

theorem find_output_iterations (fmt : String) (val : Nat → Int) (n : Nat) :
    (iterations fmt val (n + 1)).find? Event.isOutput = some (.printf fmt (val 0)) := by
  induction n with
  | zero => rfl
  | succ n ih => rw [iterations, List.find?_append, ih]; rfl

theorem UsbHello.step_ret (r1 r2 : Int) (s : UsbHello.State) :
    UsbHello.step r1 s = UsbHello.step r2 s := by
  cases s <;> rfl

theorem Hello.hello_step_ret (w : Nat) (r1 r2 : Int) (s : Hello.State) :
    Hello.step w r1 s = Hello.step w r2 s := by
  cases s <;> rfl

theorem UsbHello.exec_ret (rets1 rets2 : Nat → Int) (k : Nat) :
    UsbHello.exec rets1 k = UsbHello.exec rets2 k := by
  induction k with
  | zero => rfl
  | succ k ih =>
    rw [UsbHello.exec_succ, UsbHello.exec_succ, ih]
    cases UsbHello.exec rets2 k with
    | none => rfl
    | some p => simp only [UsbHello.step_ret (rets1 k) (rets2 k) p.1]

theorem Hello.hello_exec_ret (w : Nat) (rets1 rets2 : Nat → Int) (k : Nat) :
    Hello.exec w rets1 k = Hello.exec w rets2 k := by
  induction k with
  | zero => rfl
  | succ k ih =>
    rw [Hello.hello_exec_succ, Hello.hello_exec_succ, ih]
    cases Hello.exec w rets2 k with
    | none => rfl
    | some p => simp only [Hello.hello_step_ret w (rets1 k) (rets2 k) p.1]

/-- Every configuration of variant A: `main` has not returned and can take a step. -/
theorem UsbHello.exec_live (rets : Nat → Int) (k : Nat) :
    ∃ s tr, UsbHello.exec rets k = some (s, tr) ∧ s ≠ .returned ∧
      ∀ r, (UsbHello.step r s).isSome = true := by
  rcases Nat.lt_or_ge k 3 with h | h
  · have : k = 0 ∨ k = 1 ∨ k = 2 := by omega
    rcases this with rfl | rfl | rfl <;>
      exact ⟨_, _, rfl, by simp, fun _ => rfl⟩
  · obtain ⟨n, rfl | rfl | rfl⟩ := step_count_cases 3 k h
    · exact ⟨_, _, UsbHello.exec_while rets n, by simp, fun _ => rfl⟩
    · exact ⟨_, _, UsbHello.exec_printf rets n, by simp, fun _ => rfl⟩
    · exact ⟨_, _, UsbHello.exec_sleep rets n, by simp, fun _ => rfl⟩

/-- Every configuration of variant B: `main` has not returned and can take a step. -/
theorem Hello.hello_exec_live (w : Nat) (rets : Nat → Int) (k : Nat) :
    ∃ s tr, Hello.exec w rets k = some (s, tr) ∧ s ≠ .returned ∧
      ∀ r, (Hello.step w r s).isSome = true := by
  rcases Nat.lt_or_ge k 4 with h | h
  · have : k = 0 ∨ k = 1 ∨ k = 2 ∨ k = 3 := by omega
    rcases this with rfl | rfl | rfl | rfl <;>
      exact ⟨_, _, rfl, by simp, fun _ => rfl⟩
  · obtain ⟨n, rfl | rfl | rfl⟩ := step_count_cases 4 k h
    · exact ⟨_, _, Hello.hello_exec_while w rets n, by simp, fun _ => rfl⟩
    · exact ⟨_, _, Hello.hello_exec_printf w rets n, by simp, fun _ => rfl⟩
    · exact ⟨_, _, Hello.hello_exec_sleep w rets n, by simp, fun _ => rfl⟩

/-! ## Order of the events -/

theorem UsbHello.exec_from_two (rets : Nat → Int) (k : Nat) (hk : 2 ≤ k) :
    ∃ s rest, UsbHello.exec rets k = some (s, .stdio_init_all :: .sleep_ms 2000 :: rest) ∧
      Event.stdio_init_all ∉ rest := by
  rcases Nat.lt_or_ge k 3 with h | h
  · have : k = 2 := by omega
    subst this
    exact ⟨_, [], rfl, by simp⟩
  · obtain ⟨n, rfl | rfl | rfl⟩ := step_count_cases 3 k h
    · exact ⟨_, iterations UsbHello.format (fun i => wrap_int i) n, UsbHello.exec_while rets n,
        init_not_mem_iterations _ _ n⟩
    · exact ⟨_, iterations UsbHello.format (fun i => wrap_int i) n, UsbHello.exec_printf rets n,
        init_not_mem_iterations _ _ n⟩
    · exact ⟨_, iterations UsbHello.format (fun i => wrap_int i) n
          ++ [.printf UsbHello.format (wrap_int n)], UsbHello.exec_sleep rets n, by
        simp [init_not_mem_iterations]⟩

theorem Hello.hello_exec_from_two (w : Nat) (rets : Nat → Int) (k : Nat) (hk : 2 ≤ k) :
    ∃ s rest, Hello.exec w rets k = some (s, .stdio_init_all :: .sleep_ms 2000 :: rest) ∧
      Event.stdio_init_all ∉ rest := by
  rcases Nat.lt_or_ge k 4 with h | h
  · have : k = 2 ∨ k = 3 := by omega
    rcases this with rfl | rfl
    · exact ⟨_, [], rfl, by simp⟩
    · exact ⟨_, [.puts Hello.banner], rfl, by simp⟩
  · obtain ⟨n, rfl | rfl | rfl⟩ := step_count_cases 4 k h
    · exact ⟨_, .puts Hello.banner :: iterations Hello.format (Hello.value w) n,
        Hello.hello_exec_while w rets n, by simp [init_not_mem_iterations]⟩
    · exact ⟨_, .puts Hello.banner :: iterations Hello.format (Hello.value w) n,
        Hello.hello_exec_printf w rets n, by simp [init_not_mem_iterations]⟩
    · exact ⟨_, .puts Hello.banner :: iterations Hello.format (Hello.value w) n
          ++ [.printf Hello.format (Hello.value w n)], Hello.hello_exec_sleep w rets n, by
        simp [init_not_mem_iterations]⟩

theorem sleeps_before_output (rest : List Event) :
    2000 ≤ (sleeps (beforeFirstOutput (.stdio_init_all :: .sleep_ms 2000 :: rest))).sum := by
  simp [beforeFirstOutput, List.takeWhile, Event.isOutput, sleeps]

/-- C4: in variant A, whatever the number `k` of steps taken, `puts` has not been called,
and the first output event of the trace is absent while `k < 5` (nothing has been
written) and is the `printf` call of the first pass with counter value `0` from step
`5` on. -/
theorem usb_hello_first_output_is_tick_zero (rets : Nat → Int) (k : Nat) :
    ∃ s tr, UsbHello.exec rets k = some (s, tr) ∧ putsArgs tr = [] ∧
      tr.find? Event.isOutput
        = (if k < 5 then none else some (.printf UsbHello.format 0)) ∧
      (if k < 5 then output tr = [] else True) := by
  rcases Nat.lt_or_ge k 3 with h | h
  · have : k = 0 ∨ k = 1 ∨ k = 2 := by omega
    rcases this with rfl | rfl | rfl <;> exact ⟨_, _, rfl, by decide⟩
  · obtain ⟨n, rfl | rfl | rfl⟩ := step_count_cases 3 k h
    · refine ⟨_, _, UsbHello.exec_while rets n, ?_, ?_, ?_⟩
      · rw [putsArgs_append, putsArgs_iterations]; rfl
      · cases n with
        | zero => rfl
        | succ m =>
          rw [List.find?_append, find_output_iterations, if_neg (by omega)]
          rfl
      · cases n with
        | zero => rfl
        | succ m => rw [if_neg (by omega)]; trivial
    · refine ⟨_, _, UsbHello.exec_printf rets n, ?_, ?_, ?_⟩
      · rw [putsArgs_append, putsArgs_iterations]; rfl
      · cases n with
        | zero => rfl
        | succ m =>
          rw [List.find?_append, find_output_iterations, if_neg (by omega)]
          rfl
      · cases n with
        | zero => rfl
        | succ m => rw [if_neg (by omega)]; trivial
    · refine ⟨_, _, UsbHello.exec_sleep rets n, ?_, ?_, ?_⟩
      · rw [putsArgs_append, putsArgs_append, putsArgs_iterations]; rfl
      · rw [if_neg (by omega)]
        cases n with
        | zero => rfl
        | succ m =>
          rw [List.find?_append, List.find?_append, find_output_iterations]
          rfl
      · rw [if_neg (by omega)]; trivial

/-- C5: in both variants, from step `2` on the trace begins with `stdio_init_all()`
followed at once by `sleep_ms(2000)`, `stdio_init_all()` does not occur again, and the
`sleep_ms` durations before the first output event add up to at least 2000. -/
theorem init_then_warm_up_first (w : Nat) (rets : Nat → Int) (k : Nat) :
    (∃ s rest, UsbHello.exec rets (k + 2)
        = some (s, .stdio_init_all :: .sleep_ms 2000 :: rest) ∧
      Event.stdio_init_all ∉ rest ∧
      2000 ≤ (sleeps (beforeFirstOutput (.stdio_init_all :: .sleep_ms 2000 :: rest))).sum) ∧
    (∃ s rest, Hello.exec w rets (k + 2)
        = some (s, .stdio_init_all :: .sleep_ms 2000 :: rest) ∧
      Event.stdio_init_all ∉ rest ∧
      2000 ≤ (sleeps (beforeFirstOutput (.stdio_init_all :: .sleep_ms 2000 :: rest))).sum) := by
  constructor
  · obtain ⟨s, rest, h, hn⟩ := UsbHello.exec_from_two rets (k + 2) (by omega)
    exact ⟨s, rest, h, hn, sleeps_before_output rest⟩
  · obtain ⟨s, rest, h, hn⟩ := Hello.hello_exec_from_two w rets (k + 2) (by omega)
    exact ⟨s, rest, h, hn, sleeps_before_output rest⟩

theorem ticks_before_iterations (pro : List Event) (fmt : String) (val : Nat → Int)
    (n : Nat) (hpro : pro.filter Event.isTick = []) :
    ((pro ++ iterations fmt val n).filter Event.isTick).length = n := by
  rw [List.filter_append, hpro, List.nil_append, ticks_iterations]

/-- C6: in both variants the trace just after tick `n + 1` ends in tick `n`, one
`sleep_ms(1000)` and tick `n + 1`, with exactly `n` ticks before them: the only event
between two consecutive ticks is one delay of 1000 ms. -/
theorem one_sleep_between_ticks (w : Nat) (rets : Nat → Int) (n : Nat) :
    (∃ s pre, UsbHello.exec rets (3 * (n + 1) + 5)
        = some (s, pre ++ [.printf UsbHello.format (wrap_int n), .sleep_ms 1000,
            .printf UsbHello.format (wrap_int (n + 1))]) ∧
      (pre.filter Event.isTick).length = n) ∧
    (∃ s pre, Hello.exec w rets (3 * (n + 1) + 6)
        = some (s, pre ++ [.printf Hello.format (Hello.value w n), .sleep_ms 1000,
            .printf Hello.format (Hello.value w (n + 1))]) ∧
      (pre.filter Event.isTick).length = n) ∧
    (sleeps [Event.sleep_ms 1000]).sum = 1000 := by
  refine ⟨⟨.at_sleep_1000 (wrap_int ((n + 1 : Nat) + 1)),
      UsbHello.prologue ++ iterations UsbHello.format (fun i => wrap_int i) n, ?_, ?_⟩,
    ⟨.at_sleep_1000 ((n + 1 + 1) % 2 ^ w),
      Hello.prologue ++ iterations Hello.format (Hello.value w) n, ?_, ?_⟩, rfl⟩
  · rw [UsbHello.exec_sleep, iterations]
    simp
  · exact ticks_before_iterations UsbHello.prologue _ _ n rfl
  · rw [Hello.hello_exec_sleep, iterations]
    simp
  · exact ticks_before_iterations Hello.prologue _ _ n rfl

/-- C7: in both variants, after any number `k` of steps `main` has not returned and its
next step exists, and for every `n` the trace after `3 n + 5` steps (variant A) or
`3 n + 6` steps (variant B) holds more than `n` tick emissions. -/
theorem main_never_returns (w : Nat) (rets : Nat → Int) (k n : Nat) :
    (∃ s tr, UsbHello.exec rets k = some (s, tr) ∧ s ≠ .returned ∧
      ∀ r, (UsbHello.step r s).isSome = true) ∧
    (∃ s tr, UsbHello.exec rets (3 * n + 5) = some (s, tr) ∧
      n < (tr.filter Event.isTick).length) ∧
    (∃ s tr, Hello.exec w rets k = some (s, tr) ∧ s ≠ .returned ∧
      ∀ r, (Hello.step w r s).isSome = true) ∧
    (∃ s tr, Hello.exec w rets (3 * n + 6) = some (s, tr) ∧
      n < (tr.filter Event.isTick).length) := by
  refine ⟨UsbHello.exec_live rets k, ⟨_, _, UsbHello.exec_sleep rets n, ?_⟩,
    Hello.hello_exec_live w rets k, ⟨_, _, Hello.hello_exec_sleep w rets n, ?_⟩⟩
  · rw [List.filter_append, List.length_append,
      ticks_before_iterations UsbHello.prologue _ _ n rfl]
    exact Nat.lt_succ_self n
  · rw [List.filter_append, List.length_append,
      ticks_before_iterations Hello.prologue _ _ n rfl]
    exact Nat.lt_succ_self n

/-- C8: in both variants two runs that receive different return values from the library
calls are in the same state with the same trace (same `printf` arguments, same
`sleep_ms` durations) after every number of steps, and neither has stopped. -/
theorem emission_results_ignored (w : Nat) (rets1 rets2 : Nat → Int) (k : Nat) :
    UsbHello.exec rets1 k = UsbHello.exec rets2 k ∧
    (UsbHello.exec rets1 k).isSome = true ∧
    Hello.exec w rets1 k = Hello.exec w rets2 k ∧
    (Hello.exec w rets1 k).isSome = true := by
  refine ⟨UsbHello.exec_ret rets1 rets2 k, ?_, Hello.hello_exec_ret w rets1 rets2 k, ?_⟩
  · obtain ⟨s, tr, h, _⟩ := UsbHello.exec_live rets1 k
    rw [h]; rfl
  · obtain ⟨s, tr, h, _⟩ := Hello.hello_exec_live w rets1 k
    rw [h]; rfl

/-- C9 at the first tick: with the label of variant A replaced by the label of variant
B, the first tick of variant A reads `tick: 0` followed by a backslash and the letter
`n`, while the first tick of variant B reads `tick: 0` followed by a newline; the two
differ in their terminators. -/
theorem first_ticks_differ_after_relabel :
    (UsbHello.exec (fun _ => 0) 5).map (fun p => (p.2.filter Event.isTick).map
        (fun e => relabel "L00 Pico SDK smoke test tick ".data "tick: ".data e.text))
      = some [some ("tick: 0".data ++ ['\\', 'n'])] ∧
    (Hello.exec 32 (fun _ => 0) 6).map (fun p => (p.2.filter Event.isTick).map
        (fun e => some e.text))
      = some [some ("tick: 0".data ++ ['\n'])] ∧
    (UsbHello.exec (fun _ => 0) 5).map (fun p => (p.2.filter Event.isTick).map
        (fun e => relabel "L00 Pico SDK smoke test tick ".data "tick: ".data e.text))
      ≠ (Hello.exec 32 (fun _ => 0) 6).map (fun p => (p.2.filter Event.isTick).map
        (fun e => some e.text)) := by
  decide

end L00
